import Mathlib

/-!
Shallow embedding of `src/app.js` (a single-page tool that alternates an
image-generation request and an image-description request, then exports the
accumulated cards to a paginated PDF).

The embedding models:
* request client error handling (`generateImage` / `describeImage`,
  src/app.js lines 184-245),
* input validation (`validateInputs`, lines 90-104) and the submit guard
  (`handleFormSubmit`, lines 64-88),
* the iteration loop (`runIterations`, lines 106-182) with the network calls
  and the cooperative stop flag given by an oracle,
* the PDF export layout (`handleExportPDF`, lines 395-495).
-/

namespace VibeCoding

/-! ## Request client (src/app.js 184-245)

`generateImage` / `describeImage` issue a POST and, on a non-ok response, run
`const error = await response.json(); throw new Error(error.error?.message || generic)`.
We model the result of `response.json()` as a `JsBody`: either the body was not
parseable JSON (in which case `response.json()` itself rejects with a parse
error), or it parsed to an envelope whose `error` field may be absent and whose
`error.message` field may be absent.  JS truthiness of `||` makes an empty
string message fall back to the generic text. -/

/-- Result of `await response.json()` on an error response: `invalid` when the
body is not parseable JSON (the promise rejects), otherwise the parsed
envelope, recording whether `.error` is present and whether `.error.message`
is present (and its value). -/
inductive JsBody : Type
  | invalid : JsBody
  | parsed (errField : Option (Option String)) : JsBody
deriving DecidableEq, Repr

/-- How a request-client operation fails: a thrown `Error` with a message
(`throw new Error(...)` in the source), or the `SyntaxError` rejection coming
out of `response.json()` on an unparseable body. -/
inductive ReqFailure : Type
  | msg (m : String) : ReqFailure
  | jsonParseError : ReqFailure
deriving DecidableEq, Repr

/-- True iff the failure is a thrown `Error` carrying a message. -/
def ReqFailure.isMsg : ReqFailure → Bool
  | .msg _ => true
  | .jsonParseError => false

/-- `error.error?.message || generic` after `const error = await response.json()`:
on an unparseable body `response.json()` rejects and the parse error propagates;
otherwise optional chaining reads `message`, and `||` replaces any falsy value
(absent field or empty string) with the generic text. -/
def requestFailure (body : JsBody) (generic : String) : ReqFailure :=
  match body with
  | .invalid => .jsonParseError
  | .parsed errField =>
      .msg (match errField with
        | some (some m) => if m = "" then generic else m
        | _ => generic)

/-- A fetch response as the two operations observe it: the `ok` flag, the JSON
body (used only on the error path), and the success payload already extracted
(`data.data[0].url` for generation, `data.choices[0].message.content` for
description). -/
structure HttpResponse : Type where
  ok : Bool
  json : JsBody
  successValue : String
deriving DecidableEq, Repr

/-- `generateImage` (src/app.js 184-206) observed at a given response: on a
non-ok status it fails per `requestFailure` with generic text
"Failed to generate image"; on ok it returns `data.data[0].url`. -/
def generateImage (resp : HttpResponse) : Except ReqFailure String :=
  if resp.ok then .ok resp.successValue
  else .error (requestFailure resp.json "Failed to generate image")

/-- `describeImage` (src/app.js 208-245) observed at a given response: same
error policy with generic text "Failed to describe image"; on ok it returns
`data.choices[0].message.content`. -/
def describeImage (resp : HttpResponse) : Except ReqFailure String :=
  if resp.ok then .ok resp.successValue
  else .error (requestFailure resp.json "Failed to describe image")

/-! ## Validation (src/app.js 90-104)

`handleFormSubmit` reads `promptInput.value.trim()`,
`parseInt(iterationsInput.value)` and `apiKeyInput.value.trim()` and calls
`validateInputs`.  `parseInt` is modelled as `Option Int` (`none` for `NaN`);
JS truthiness makes `!iterations` true for both `NaN` and `0`. -/

/-- The whitespace characters `String.prototype.trim` strips (modelled on
the ASCII subset; the claims never depend on the exact whitespace set). -/
def jsWhitespace (ch : Char) : Bool :=
  ch = ' ' || ch = '\t' || ch = '\n' || ch = '\r'

/-- `s.trim()` of JS: strip leading and trailing whitespace. -/
def jsTrim (s : String) : String :=
  String.mk (((s.data.dropWhile jsWhitespace).reverse.dropWhile
    jsWhitespace).reverse)

/-- `s.startsWith(pre)` of JS. -/
def jsStartsWith (s pre : String) : Bool :=
  pre.data.isPrefixOf s.data

/-- `validateInputs(prompt, iterations, apiKey)`: returns the error message,
or `none` when all checks pass.  `!prompt` on a trimmed string is emptiness;
`!iterations` catches `NaN` and `0`; `!apiKey` and the `sk-` check
rejects the empty key and any key without the `sk-` prefix. -/
def validateInputs (prompt : String) (iterations : Option Int) (apiKey : String) :
    Option String :=
  if prompt = "" then
    some "Please enter an initial prompt."
  else if iterations = none ∨ iterations = some 0 ∨
      (iterations.getD 0) < 1 ∨ (iterations.getD 0) > 10 then
    some "Please enter a valid number of iterations (1-10)."
  else if apiKey = "" ∨ ¬ jsStartsWith apiKey "sk-" then
    some "Please enter a valid OpenAI API key."
  else
    none

/-! ## Iteration engine (src/app.js 106-182)

`runIterations(initialPrompt, iterations, apiKey)` loops `i = 1..iterations`:
it reads `shouldStop` at the top of each iteration (breaking with the banner
message "Generation stopped by user."), creates the iteration card, awaits
`generateImage`, and, when `i < iterations`, reads `shouldStop` again before
awaiting `describeImage`; a throw from either await is rethrown, aborting the
loop, and the catch shows `Error: ${message}`.  On the final iteration the
description step is skipped and the card is marked "Final Image /
Generation complete!".  After the loop `if (!shouldStop)` reports
"All iterations complete!".  The `finally` clears `isGenerating`.

The environment is an `Oracle`: the outcome of each awaited network call as a
function of the iteration index and the request argument, and the value of the
`shouldStop` flag at each successive read (reads are numbered 0,1,2,... in the
order the loop performs them; `handleStop` only ever sets the flag, so a real
schedule is monotone). -/

/-- The environment of one run: `gen i p` is what `await generateImage(p, key)`
does at iteration `i` (the url, or the message of the thrown error); `desc i u` is
`await describeImage(u, key)`; `stopAt c` is the value of `shouldStop` at the
`c`-th read of the flag. -/
structure Oracle : Type where
  gen : Nat → String → Except String String
  desc : Nat → String → Except String String
  stopAt : Nat → Bool

/-- A network request issued by the loop, with its argument. -/
inductive Event : Type
  | genReq (i : Nat) (prompt : String) : Event
  | descReq (i : Nat) (url : String) : Event
deriving DecidableEq, Repr

/-- The state of one iteration card, as the display helpers leave it. -/
structure Record : Type where
  index : Nat
  image : Option String := none
  imageError : Option String := none
  description : Option String := none
  descriptionError : Option String := none
  /-- the "Final Image / Generation complete!" marker set on the last
  iteration -/
  terminal : Bool := false
deriving DecidableEq, Repr

/-- How the `for` loop was left: ran to completion, broke at a stop check
(top of an iteration, or before the description step), or aborted by a thrown
request failure.  The `Nat` is the index of the next read of `shouldStop`. -/
inductive RunExit : Type
  | completedLoop (c : Nat) : RunExit
  | stoppedTop (c : Nat) : RunExit
  | stoppedBeforeDesc (c : Nat) : RunExit
  | failed (e : String) : RunExit
deriving DecidableEq, Repr

/-- The loop body of `runIterations` from iteration `i` with flag-read counter
`c` and current prompt: returns the cards created from here on, the network
requests issued, and how the loop exited. -/
def runFrom (o : Oracle) (N : Nat) (i c : Nat) (prompt : String) :
    List Record × List Event × RunExit :=
  if N < i then ([], [], .completedLoop c)
  else if o.stopAt c then ([], [], .stoppedTop (c + 1))
  else
    match o.gen i prompt with
    | .error e =>
        ([{ index := i, imageError := some e }], [.genReq i prompt], .failed e)
    | .ok url =>
        if h : i < N then
          if o.stopAt (c + 1) then
            ([{ index := i, image := some url }], [.genReq i prompt],
              .stoppedBeforeDesc (c + 2))
          else
            match o.desc i url with
            | .error e =>
                ([{ index := i, image := some url, descriptionError := some e }],
                  [.genReq i prompt, .descReq i url], .failed e)
            | .ok d =>
                let rest := runFrom o N (i + 1) (c + 2) d
                ({ index := i, image := some url, description := some d } :: rest.1,
                  .genReq i prompt :: .descReq i url :: rest.2.1, rest.2.2)
        else
          ([{ index := i, image := some url, terminal := true }],
            [.genReq i prompt], .completedLoop (c + 1))
termination_by N + 1 - i
decreasing_by omega

/-- The observable outcome of one `runIterations` call. -/
structure RunResult : Type where
  records : List Record
  events : List Event
  exit : RunExit
  /-- the last message shown in the error banner during the run, if any -/
  errorShown : Option String
  /-- whether "All iterations complete!" was reported (and the export button
  shown) -/
  completionSignaled : Bool
  /-- the value of `isGenerating` after the `finally` block -/
  isGeneratingAfter : Bool
deriving Repr

/-- `runIterations(initialPrompt, iterations, apiKey)` (src/app.js 106-182):
runs the loop, then the `catch` (showing `Error: ${message}`) or the
post-loop `if (!shouldStop)` completion report, then the `finally`.  The stop
break at the top of an iteration shows "Generation stopped by user.". -/
def runIterations (o : Oracle) (iterations : Nat) (initialPrompt : String) :
    RunResult :=
  let t := runFrom o iterations 1 0 initialPrompt
  match t.2.2 with
  | .failed e =>
      { records := t.1, events := t.2.1, exit := .failed e,
        errorShown := some ("Error: " ++ e),
        completionSignaled := false, isGeneratingAfter := false }
  | .stoppedTop c =>
      { records := t.1, events := t.2.1, exit := .stoppedTop c,
        errorShown := some "Generation stopped by user.",
        completionSignaled := ! o.stopAt c, isGeneratingAfter := false }
  | .stoppedBeforeDesc c =>
      { records := t.1, events := t.2.1, exit := .stoppedBeforeDesc c,
        errorShown := none,
        completionSignaled := ! o.stopAt c, isGeneratingAfter := false }
  | .completedLoop c =>
      { records := t.1, events := t.2.1, exit := .completedLoop c,
        errorShown := none,
        completionSignaled := ! o.stopAt c, isGeneratingAfter := false }

/-! ## Submit handler (src/app.js 64-88) -/

/-- What one `handleFormSubmit` call did. -/
inductive SubmitOutcome : Type
  | ignored : SubmitOutcome
  | invalid (message : String) : SubmitOutcome
  | ran (r : RunResult) : SubmitOutcome

/-- `handleFormSubmit`: `if (isGenerating) return;` then trim the inputs,
validate, and either show the validation error or start `runIterations`. -/
def handleFormSubmit (isGenerating : Bool) (o : Oracle)
    (promptRaw : String) (iterationsParsed : Option Int) (apiKeyRaw : String) :
    SubmitOutcome :=
  if isGenerating then .ignored
  else
    let prompt := jsTrim promptRaw
    let apiKey := jsTrim apiKeyRaw
    match validateInputs prompt iterationsParsed apiKey with
    | some m => .invalid m
    | none => .ran (runIterations o (iterationsParsed.getD 0).toNat prompt)

/-- The network requests a submit outcome issued (none unless a run started). -/
def submitEvents : SubmitOutcome → List Event
  | .ignored => []
  | .invalid _ => []
  | .ran r => r.events

/-! ## Helpers for reasoning about the loop -/

/-- Whether an awaited call resolved (rather than threw). -/
def succeeds : Except String String → Bool
  | .ok _ => true
  | .error _ => false

/-- The url a successful generation call returns (dummy on error). -/
def genOut (o : Oracle) (i : Nat) (p : String) : String :=
  match o.gen i p with
  | .ok u => u
  | .error _ => ""

/-- The description a successful describe call returns for the image of
iteration `i` (dummy on error). -/
def descOut (o : Oracle) (i : Nat) (p : String) : String :=
  match o.desc i (genOut o i p) with
  | .ok d => d
  | .error _ => ""

/-- The cards of `m` fully successful non-final iterations starting at
iteration `i` with prompt `p`. -/
def fullRecs (o : Oracle) : Nat → Nat → String → List Record
  | _, 0, _ => []
  | i, m + 1, p =>
      { index := i, image := some (genOut o i p),
        description := some (descOut o i p) } ::
        fullRecs o (i + 1) m (descOut o i p)

/-- The requests those iterations issue. -/
def fullEvs (o : Oracle) : Nat → Nat → String → List Event
  | _, 0, _ => []
  | i, m + 1, p =>
      .genReq i p :: .descReq i (genOut o i p) ::
        fullEvs o (i + 1) m (descOut o i p)

/-- The prompt current after `m` fully successful iterations starting at
iteration `i` with prompt `p`. -/
def promptFrom (o : Oracle) : Nat → Nat → String → String
  | _, 0, p => p
  | i, m + 1, p => promptFrom o (i + 1) m (descOut o i p)

/-- The iteration index a request belongs to. -/
def eventIdx : Event → Nat
  | .genReq i _ => i
  | .descReq i _ => i

/-- The prompt of the first image-generation request issued for iteration
`i`. -/
def genPromptOf (evs : List Event) (i : Nat) : Option String :=
  evs.findSome? fun ev =>
    match ev with
    | .genReq j q => if j = i then some q else none
    | .descReq _ _ => none

theorem succeeds_iff {r : Except String String} :
    succeeds r = true ↔ ∃ u, r = .ok u := by
  cases r <;> simp [succeeds]

/-! ### One-step unfoldings of `runFrom` -/

theorem runFrom_stopTop (o : Oracle) (N i c : Nat) (p : String)
    (hiN : i ≤ N) (h0 : o.stopAt c = true) :
    runFrom o N i c p = ([], [], .stoppedTop (c + 1)) := by
  rw [runFrom]
  simp [Nat.not_lt.mpr hiN, h0]

theorem runFrom_genFail (o : Oracle) (N i c : Nat) (p e : String)
    (hiN : i ≤ N) (h0 : o.stopAt c = false) (hg : o.gen i p = .error e) :
    runFrom o N i c p =
      ([{ index := i, imageError := some e }], [.genReq i p], .failed e) := by
  rw [runFrom]
  simp [Nat.not_lt.mpr hiN, h0, hg]

theorem runFrom_stopBeforeDesc (o : Oracle) (N i c : Nat) (p u : String)
    (hiN : i < N) (h0 : o.stopAt c = false) (h1 : o.stopAt (c + 1) = true)
    (hg : o.gen i p = .ok u) :
    runFrom o N i c p =
      ([{ index := i, image := some u }], [.genReq i p],
        .stoppedBeforeDesc (c + 2)) := by
  rw [runFrom]
  simp [Nat.not_lt.mpr hiN.le, h0, h1, hg, hiN]

theorem runFrom_descFail (o : Oracle) (N i c : Nat) (p u e : String)
    (hiN : i < N) (h0 : o.stopAt c = false) (h1 : o.stopAt (c + 1) = false)
    (hg : o.gen i p = .ok u) (hd : o.desc i u = .error e) :
    runFrom o N i c p =
      ([{ index := i, image := some u, descriptionError := some e }],
        [.genReq i p, .descReq i u], .failed e) := by
  rw [runFrom]
  simp [Nat.not_lt.mpr hiN.le, h0, h1, hg, hd, hiN]

theorem runFrom_stepOk (o : Oracle) (N i c : Nat) (p u d : String)
    (hiN : i < N) (h0 : o.stopAt c = false) (h1 : o.stopAt (c + 1) = false)
    (hg : o.gen i p = .ok u) (hd : o.desc i u = .ok d) :
    runFrom o N i c p =
      ({ index := i, image := some u, description := some d } ::
          (runFrom o N (i + 1) (c + 2) d).1,
        .genReq i p :: .descReq i u :: (runFrom o N (i + 1) (c + 2) d).2.1,
        (runFrom o N (i + 1) (c + 2) d).2.2) := by
  conv_lhs => rw [runFrom]
  simp [Nat.not_lt.mpr hiN.le, h0, h1, hg, hd, hiN]

theorem runFrom_last (o : Oracle) (N c : Nat) (p u : String)
    (h0 : o.stopAt c = false) (hg : o.gen N p = .ok u) :
    runFrom o N N c p =
      ([{ index := N, image := some u, terminal := true }], [.genReq N p],
        .completedLoop (c + 1)) := by
  rw [runFrom]
  simp [Nat.lt_irrefl, h0, hg]

/-! ### Shape facts about the successful prefix -/

theorem fullRecs_length (o : Oracle) :
    ∀ m i p, (fullRecs o i m p).length = m := by
  intro m
  induction m with
  | zero => intro i p; simp [fullRecs]
  | succ m ih => intro i p; simp [fullRecs, ih]

theorem fullEvs_length (o : Oracle) :
    ∀ m i p, (fullEvs o i m p).length = 2 * m := by
  intro m
  induction m with
  | zero => intro i p; simp [fullEvs]
  | succ m ih => intro i p; simp [fullEvs, ih]; omega

theorem mem_fullRecs (o : Oracle) :
    ∀ m i p rec, rec ∈ fullRecs o i m p →
      i ≤ rec.index ∧ rec.index < i + m ∧
      (∃ u, rec.image = some u) ∧ (∃ d, rec.description = some d) ∧
      rec.imageError = none ∧ rec.descriptionError = none ∧
      rec.terminal = false := by
  intro m
  induction m with
  | zero => intro i p rec h; simp [fullRecs] at h
  | succ m ih =>
      intro i p rec h
      rw [fullRecs] at h
      rcases List.mem_cons.mp h with h | h
      · subst h
        refine ⟨le_refl _, ?_, ⟨_, rfl⟩, ⟨_, rfl⟩, rfl, rfl, rfl⟩
        show i < i + (m + 1)
        omega
      · have := ih (i + 1) (descOut o i p) rec h
        exact ⟨by omega, by omega, this.2.2.1, this.2.2.2.1, this.2.2.2.2.1,
          this.2.2.2.2.2.1, this.2.2.2.2.2.2⟩

theorem exists_mem_fullRecs (o : Oracle) :
    ∀ m i p k, i ≤ k → k < i + m →
      ∃ rec ∈ fullRecs o i m p, rec.index = k := by
  intro m
  induction m with
  | zero => intro i p k h1 h2; omega
  | succ m ih =>
      intro i p k h1 h2
      rw [fullRecs]
      by_cases hk : k = i
      · subst hk
        exact ⟨_, List.mem_cons_self _ _, rfl⟩
      · obtain ⟨rec, hmem, hidx⟩ :=
          ih (i + 1) (descOut o i p) k (by omega) (by omega)
        exact ⟨rec, List.mem_cons_of_mem _ hmem, hidx⟩

theorem mem_fullEvs (o : Oracle) :
    ∀ m i p ev, ev ∈ fullEvs o i m p →
      i ≤ eventIdx ev ∧ eventIdx ev < i + m := by
  intro m
  induction m with
  | zero => intro i p ev h; simp [fullEvs] at h
  | succ m ih =>
      intro i p ev h
      rw [fullEvs] at h
      rcases List.mem_cons.mp h with h | h
      · subst h; simp only [eventIdx]; omega
      rcases List.mem_cons.mp h with h | h
      · subst h; simp only [eventIdx]; omega
      · have := ih (i + 1) (descOut o i p) ev h
        omega

/-- Under `m` successful, unstopped iterations starting at `i`, the loop
unrolls to iteration `i + m`, accumulating the full-iteration cards and
request events and consuming two flag reads per iteration. -/
theorem runFrom_unroll (o : Oracle) (N : Nat) :
    ∀ m i c p, i + m ≤ N →
    (∀ j, j < 2 * m → o.stopAt (c + j) = false) →
    (∀ j q, i ≤ j → j < i + m → succeeds (o.gen j q) = true) →
    (∀ j u, i ≤ j → j < i + m → succeeds (o.desc j u) = true) →
    runFrom o N i c p =
      (fullRecs o i m p ++
          (runFrom o N (i + m) (c + 2 * m) (promptFrom o i m p)).1,
        fullEvs o i m p ++
          (runFrom o N (i + m) (c + 2 * m) (promptFrom o i m p)).2.1,
        (runFrom o N (i + m) (c + 2 * m) (promptFrom o i m p)).2.2) := by
  intro m
  induction m with
  | zero =>
      intro i c p _ _ _ _
      simp [fullRecs, fullEvs, promptFrom]
  | succ m ih =>
      intro i c p hN hstop hgen hdesc
      have hiN : i < N := by omega
      obtain ⟨u, hu⟩ := succeeds_iff.mp (hgen i p le_rfl (by omega))
      obtain ⟨d, hd⟩ := succeeds_iff.mp (hdesc i u le_rfl (by omega))
      have h0 : o.stopAt c = false := by
        have := hstop 0 (by omega); simpa using this
      have h1 : o.stopAt (c + 1) = false := by
        have := hstop 1 (by omega); simpa using this
      have hd' : o.desc i (genOut o i p) = .ok d := by
        simp [genOut, hu, hd]
      have hdo : descOut o i p = d := by
        simp [descOut, genOut, hu, hd]
      rw [runFrom_stepOk o N i c p u d hiN h0 h1 hu hd]
      have ihx := ih (i + 1) (c + 2) d (by omega)
        (fun j hj => by
          have := hstop (j + 2) (by omega)
          simpa [Nat.add_assoc, Nat.add_comm, Nat.add_left_comm] using this)
        (fun j q hj1 hj2 => hgen j q (by omega) (by omega))
        (fun j v hj1 hj2 => hdesc j v (by omega) (by omega))
      rw [ihx]
      have e1 : i + 1 + m = i + (m + 1) := by omega
      have e2 : c + 2 + 2 * m = c + 2 * (m + 1) := by omega
      rw [e1, e2] at *
      simp only [fullRecs, fullEvs, promptFrom, hdo]
      have eg : genOut o i p = u := by simp [genOut, hu]
      simp [eg, hdo]

/-- A concrete environment in which every network call succeeds and stop is
never requested. -/
def happyOracle : Oracle where
  gen := fun i _ => .ok ("img" ++ toString i)
  desc := fun i _ => .ok ("a drawing " ++ toString i)
  stopAt := fun _ => false

/-- C1: for every iteration count N in [1,10], with no network failure and no
stop request, the run produces exactly N iteration records, each iteration
index 1..N occurs, records with index < N have both an image and a
description set (and no terminal marker), and the record with index N has
only an image set and carries the terminal marker; no description request is
ever issued for iteration N, and the run reports completion with no error. -/
theorem C1_run_shape (o : Oracle) (N : Nat) (p : String)
    (hN1 : 1 ≤ N) (hN10 : N ≤ 10)
    (hstop : ∀ c, o.stopAt c = false)
    (hgen : ∀ i q, succeeds (o.gen i q) = true)
    (hdesc : ∀ i u, succeeds (o.desc i u) = true) :
    (runIterations o N p).records.length = N ∧
    (∀ k, 1 ≤ k → k ≤ N →
      ∃ rec ∈ (runIterations o N p).records, rec.index = k) ∧
    (∀ rec ∈ (runIterations o N p).records,
      1 ≤ rec.index ∧ rec.index ≤ N ∧
      rec.imageError = none ∧ rec.descriptionError = none ∧
      (rec.index < N →
        (∃ u, rec.image = some u) ∧ (∃ d, rec.description = some d) ∧
        rec.terminal = false) ∧
      (rec.index = N →
        (∃ u, rec.image = some u) ∧ rec.description = none ∧
        rec.terminal = true)) ∧
    (∀ u, Event.descReq N u ∉ (runIterations o N p).events) ∧
    (runIterations o N p).completionSignaled = true ∧
    (runIterations o N p).errorShown = none := by
  obtain ⟨u, hu⟩ := succeeds_iff.mp (hgen N (promptFrom o 1 (N - 1) p))
  have hrun : runFrom o N 1 0 p =
      (fullRecs o 1 (N - 1) p ++
          [{ index := N, image := some u, terminal := true }],
        fullEvs o 1 (N - 1) p ++ [.genReq N (promptFrom o 1 (N - 1) p)],
        .completedLoop (0 + 2 * (N - 1) + 1)) := by
    have h := runFrom_unroll o N (N - 1) 1 0 p (by omega)
      (fun j _ => hstop _) (fun j q _ _ => hgen j q)
      (fun j v _ _ => hdesc j v)
    have e1 : 1 + (N - 1) = N := by omega
    rw [e1] at h
    rw [h, runFrom_last o N (0 + 2 * (N - 1)) (promptFrom o 1 (N - 1) p) u
      (hstop _) hu]
  have hres : runIterations o N p =
      { records := fullRecs o 1 (N - 1) p ++
          [{ index := N, image := some u, terminal := true }],
        events := fullEvs o 1 (N - 1) p ++
          [.genReq N (promptFrom o 1 (N - 1) p)],
        exit := .completedLoop (0 + 2 * (N - 1) + 1),
        errorShown := none,
        completionSignaled := ! o.stopAt (0 + 2 * (N - 1) + 1),
        isGeneratingAfter := false } := by
    simp only [runIterations, hrun]
  rw [hres]
  refine ⟨?_, ?_, ?_, ?_, ?_, rfl⟩
  · simp [fullRecs_length]
    omega
  · intro k hk1 hkN
    by_cases hk : k = N
    · subst hk
      exact ⟨_, List.mem_append_right _ (List.mem_singleton_self _), rfl⟩
    · obtain ⟨rec, hmem, hidx⟩ :=
        exists_mem_fullRecs o (N - 1) 1 p k hk1 (by omega)
      exact ⟨rec, List.mem_append_left _ hmem, hidx⟩
  · intro rec hmem
    rcases List.mem_append.mp hmem with hmem | hmem
    · obtain ⟨hge, hlt, himg, hdesc', hie, hde, hterm⟩ :=
        mem_fullRecs o (N - 1) 1 p rec hmem
      refine ⟨hge, by omega, hie, hde, fun _ => ⟨himg, hdesc', hterm⟩,
        fun hidx => absurd hidx (by omega)⟩
    · rw [List.mem_singleton] at hmem
      subst hmem
      exact ⟨hN1, le_refl N, rfl, rfl,
        fun hlt => absurd hlt (lt_irrefl N), fun _ => ⟨⟨u, rfl⟩, rfl, rfl⟩⟩
  · intro v hmem
    rcases List.mem_append.mp hmem with hmem | hmem
    · have := mem_fullEvs o (N - 1) 1 p _ hmem
      simp [eventIdx] at this
      omega
    · rw [List.mem_singleton] at hmem
      exact Event.noConfusion hmem
  · simp [hstop]

/-- Witness for C1 at N = 3 with `happyOracle` and seed prompt "seed". -/
theorem C1_witness :
    ((1 : Nat) ≤ 3 ∧ (3 : Nat) ≤ 10 ∧
      (∀ c, happyOracle.stopAt c = false) ∧
      (∀ i q, succeeds (happyOracle.gen i q) = true) ∧
      (∀ i u, succeeds (happyOracle.desc i u) = true)) ∧
    ((runIterations happyOracle 3 "seed").records.length = 3 ∧
      (∀ k, 1 ≤ k → k ≤ 3 →
        ∃ rec ∈ (runIterations happyOracle 3 "seed").records, rec.index = k) ∧
      (∀ rec ∈ (runIterations happyOracle 3 "seed").records,
        1 ≤ rec.index ∧ rec.index ≤ 3 ∧
        rec.imageError = none ∧ rec.descriptionError = none ∧
        (rec.index < 3 →
          (∃ u, rec.image = some u) ∧ (∃ d, rec.description = some d) ∧
          rec.terminal = false) ∧
        (rec.index = 3 →
          (∃ u, rec.image = some u) ∧ rec.description = none ∧
          rec.terminal = true)) ∧
      (∀ u, Event.descReq 3 u ∉ (runIterations happyOracle 3 "seed").events) ∧
      (runIterations happyOracle 3 "seed").completionSignaled = true ∧
      (runIterations happyOracle 3 "seed").errorShown = none) :=
  ⟨⟨by decide, by decide, fun _ => rfl, fun _ _ => rfl, fun _ _ => rfl⟩,
    C1_run_shape happyOracle 3 "seed" (by decide) (by decide)
      (fun _ => rfl) (fun _ _ => rfl) (fun _ _ => rfl)⟩

/-- Like `happyOracle`, but image generation throws "boom" at iteration 2. -/
def genFailOracle : Oracle where
  gen := fun i _ => if i = 2 then .error "boom" else .ok "img"
  desc := fun _ _ => .ok "d"
  stopAt := fun _ => false

/-- Like `happyOracle`, but the description throws "dboom" at iteration 2. -/
def descFailOracle : Oracle where
  gen := fun _ _ => .ok "img"
  desc := fun i _ => if i = 2 then .error "dboom" else .ok "d"
  stopAt := fun _ => false

/-- C3: with no stop request and all calls before iteration k succeeding, a
request failure in iteration k aborts the run immediately.  A generation
failure leaves exactly k records, the last being record k with only the
image-error set (no description was attempted for k, and no request of
iteration k+1 was ever issued); a description failure leaves record k with
its already-generated image retained and the description-error set.  In both
cases the failure message is surfaced as the top-level run error
`Error: <message>` and completion is not signaled. -/
theorem C3_failure_aborts (o : Oracle) (N k : Nat) (p : String)
    (hk1 : 1 ≤ k) (hkN : k ≤ N)
    (hstop : ∀ c, o.stopAt c = false)
    (hgen : ∀ j q, j < k → succeeds (o.gen j q) = true)
    (hdesc : ∀ j u, j < k → succeeds (o.desc j u) = true) :
    (∀ e, o.gen k (promptFrom o 1 (k - 1) p) = .error e →
      (runIterations o N p).records.length = k ∧
      (runIterations o N p).records.getLast? =
        some { index := k, imageError := some e } ∧
      (∀ u, Event.descReq k u ∉ (runIterations o N p).events) ∧
      (∀ q, Event.genReq (k + 1) q ∉ (runIterations o N p).events) ∧
      (∀ rec ∈ (runIterations o N p).records, rec.index ≤ k) ∧
      (runIterations o N p).exit = .failed e ∧
      (runIterations o N p).errorShown = some ("Error: " ++ e) ∧
      (runIterations o N p).completionSignaled = false) ∧
    (∀ u e, k < N → o.gen k (promptFrom o 1 (k - 1) p) = .ok u →
      o.desc k u = .error e →
      (runIterations o N p).records.length = k ∧
      (runIterations o N p).records.getLast? =
        some { index := k, image := some u, descriptionError := some e } ∧
      (∀ q, Event.genReq (k + 1) q ∉ (runIterations o N p).events) ∧
      (∀ rec ∈ (runIterations o N p).records, rec.index ≤ k) ∧
      (runIterations o N p).exit = .failed e ∧
      (runIterations o N p).errorShown = some ("Error: " ++ e) ∧
      (runIterations o N p).completionSignaled = false) := by
  have e1 : 1 + (k - 1) = k := by omega
  have hunroll := runFrom_unroll o N (k - 1) 1 0 p (by omega)
    (fun j _ => hstop _) (fun j q hj1 hj2 => hgen j q (by omega))
    (fun j v hj1 hj2 => hdesc j v (by omega))
  rw [e1] at hunroll
  constructor
  · intro e he
    have hrest := runFrom_genFail o N k (0 + 2 * (k - 1))
      (promptFrom o 1 (k - 1) p) e hkN (hstop _) he
    rw [hrest] at hunroll
    have hres : runIterations o N p =
        { records := fullRecs o 1 (k - 1) p ++ [{ index := k, imageError := some e }],
          events := fullEvs o 1 (k - 1) p ++
            [.genReq k (promptFrom o 1 (k - 1) p)],
          exit := .failed e,
          errorShown := some ("Error: " ++ e),
          completionSignaled := false,
          isGeneratingAfter := false } := by
      simp only [runIterations, hunroll]
    rw [hres]
    refine ⟨?_, ?_, ?_, ?_, ?_, rfl, rfl, rfl⟩
    · simp [fullRecs_length]
      omega
    · simp
    · intro v hmem
      rcases List.mem_append.mp hmem with hmem | hmem
      · have := mem_fullEvs o (k - 1) 1 p _ hmem
        simp [eventIdx] at this
        omega
      · rw [List.mem_singleton] at hmem
        exact Event.noConfusion hmem
    · intro q hmem
      rcases List.mem_append.mp hmem with hmem | hmem
      · have := mem_fullEvs o (k - 1) 1 p _ hmem
        simp [eventIdx] at this
        omega
      · rw [List.mem_singleton] at hmem
        simp only [Event.genReq.injEq] at hmem
        omega
    · intro rec hmem
      rcases List.mem_append.mp hmem with hmem | hmem
      · have := mem_fullRecs o (k - 1) 1 p rec hmem
        omega
      · rw [List.mem_singleton] at hmem
        subst hmem
        exact le_refl k
  · intro u e hkN' hu hd
    have hrest := runFrom_descFail o N k (0 + 2 * (k - 1))
      (promptFrom o 1 (k - 1) p) u e hkN' (hstop _) (hstop _) hu hd
    rw [hrest] at hunroll
    have hres : runIterations o N p =
        { records := fullRecs o 1 (k - 1) p ++
            [{ index := k, image := some u, descriptionError := some e }],
          events := fullEvs o 1 (k - 1) p ++
            [.genReq k (promptFrom o 1 (k - 1) p), .descReq k u],
          exit := .failed e,
          errorShown := some ("Error: " ++ e),
          completionSignaled := false,
          isGeneratingAfter := false } := by
      simp only [runIterations, hunroll]
    rw [hres]
    refine ⟨?_, ?_, ?_, ?_, rfl, rfl, rfl⟩
    · simp [fullRecs_length]
      omega
    · simp
    · intro q hmem
      rcases List.mem_append.mp hmem with hmem | hmem
      · have := mem_fullEvs o (k - 1) 1 p _ hmem
        simp [eventIdx] at this
        omega
      rcases List.mem_cons.mp hmem with hmem | hmem
      · simp only [Event.genReq.injEq] at hmem
        omega
      · rw [List.mem_singleton] at hmem
        exact Event.noConfusion hmem
    · intro rec hmem
      rcases List.mem_append.mp hmem with hmem | hmem
      · have := mem_fullRecs o (k - 1) 1 p rec hmem
        omega
      · rw [List.mem_singleton] at hmem
        subst hmem
        exact le_refl k

/-- Witness for C3: generation failing at iteration 2 of 3
(`genFailOracle`), and description failing at iteration 2 of 3
(`descFailOracle`). -/
theorem C3_witness :
    ((runIterations genFailOracle 3 "seed").records.length = 2 ∧
      (runIterations genFailOracle 3 "seed").records.getLast? =
        some { index := 2, imageError := some "boom" } ∧
      (∀ u, Event.descReq 2 u ∉ (runIterations genFailOracle 3 "seed").events) ∧
      (∀ q, Event.genReq 3 q ∉ (runIterations genFailOracle 3 "seed").events) ∧
      (∀ rec ∈ (runIterations genFailOracle 3 "seed").records, rec.index ≤ 2) ∧
      (runIterations genFailOracle 3 "seed").exit = .failed "boom" ∧
      (runIterations genFailOracle 3 "seed").errorShown =
        some ("Error: " ++ "boom") ∧
      (runIterations genFailOracle 3 "seed").completionSignaled = false) ∧
    ((runIterations descFailOracle 3 "seed").records.length = 2 ∧
      (runIterations descFailOracle 3 "seed").records.getLast? =
        some { index := 2, image := some "img", descriptionError := some "dboom" } ∧
      (∀ q, Event.genReq 3 q ∉ (runIterations descFailOracle 3 "seed").events) ∧
      (∀ rec ∈ (runIterations descFailOracle 3 "seed").records, rec.index ≤ 2) ∧
      (runIterations descFailOracle 3 "seed").exit = .failed "dboom" ∧
      (runIterations descFailOracle 3 "seed").errorShown =
        some ("Error: " ++ "dboom") ∧
      (runIterations descFailOracle 3 "seed").completionSignaled = false) := by
  constructor
  · exact (C3_failure_aborts genFailOracle 3 2 "seed" (by decide) (by decide)
      (fun _ => rfl)
      (fun j q hj => by
        have : j ≠ 2 := by omega
        simp [genFailOracle, this, succeeds])
      (fun j v hj => rfl)).1 "boom" rfl
  · exact (C3_failure_aborts descFailOracle 3 2 "seed" (by decide) (by decide)
      (fun _ => rfl)
      (fun j q hj => rfl)
      (fun j v hj => by
        have : j ≠ 2 := by omega
        simp [descFailOracle, this, succeeds])).2 "img" "dboom" (by decide)
      rfl rfl

/-- Like `happyOracle`, but `handleStop` fires during the image generation of
iteration 2 of a run: the flag reads numbered 0,1,2 (iterations 1 and the top
of iteration 2) see `false`, every later read sees `true`. -/
def stopOracle : Oracle where
  gen := fun _ _ => .ok "img"
  desc := fun _ _ => .ok "d"
  stopAt := fun c => decide (3 ≤ c)

/-- C4: if the stop flag is first observed at the read before the description
step of iteration k (reads 0 .. 2k-2 see false, reads from 2k-1 on see true;
that is, `handleStop` ran after the image of iteration k succeeded), the loop
stops after record k: exactly k records exist, the last is record k with its
image set and no description, the description request of iteration k and the
generation request of iteration k+1 are never issued, and the run ends as a
stop (`stoppedBeforeDesc`) and not as a failure, with no error banner and no
completion signal.  The flag is read only at the checkpoints the `Oracle`
numbers — the top of each iteration and before each description step — so a
flag change during a network call is honored only at the next checkpoint. -/
theorem C4_stop_before_desc (o : Oracle) (N k : Nat) (p : String)
    (hk1 : 1 ≤ k) (hkN : k < N)
    (hgen : ∀ j q, j ≤ k → succeeds (o.gen j q) = true)
    (hdesc : ∀ j u, j < k → succeeds (o.desc j u) = true)
    (hstop1 : ∀ c, c < 2 * k - 1 → o.stopAt c = false)
    (hstop2 : ∀ c, 2 * k - 1 ≤ c → o.stopAt c = true) :
    (runIterations o N p).records.length = k ∧
    (runIterations o N p).records.getLast? =
      some { index := k,
             image := some (genOut o k (promptFrom o 1 (k - 1) p)) } ∧
    (∀ u, Event.descReq k u ∉ (runIterations o N p).events) ∧
    (∀ q, Event.genReq (k + 1) q ∉ (runIterations o N p).events) ∧
    (∀ rec ∈ (runIterations o N p).records, rec.index ≤ k) ∧
    (runIterations o N p).exit = .stoppedBeforeDesc (2 * k) ∧
    (∀ e, (runIterations o N p).exit ≠ .failed e) ∧
    (runIterations o N p).errorShown = none ∧
    (runIterations o N p).completionSignaled = false := by
  have e1 : 1 + (k - 1) = k := by omega
  have hunroll := runFrom_unroll o N (k - 1) 1 0 p (by omega)
    (fun j hj => hstop1 _ (by omega))
    (fun j q hj1 hj2 => hgen j q (by omega))
    (fun j v hj1 hj2 => hdesc j v (by omega))
  rw [e1] at hunroll
  obtain ⟨u, hu⟩ := succeeds_iff.mp (hgen k (promptFrom o 1 (k - 1) p) le_rfl)
  have hgo : genOut o k (promptFrom o 1 (k - 1) p) = u := by
    simp [genOut, hu]
  have hrest := runFrom_stopBeforeDesc o N k (0 + 2 * (k - 1))
    (promptFrom o 1 (k - 1) p) u hkN (hstop1 _ (by omega))
    (hstop2 _ (by omega)) hu
  rw [hrest] at hunroll
  have e2 : 0 + 2 * (k - 1) + 2 = 2 * k := by omega
  rw [e2] at hunroll
  have hres : runIterations o N p =
      { records := fullRecs o 1 (k - 1) p ++ [{ index := k, image := some u }],
        events := fullEvs o 1 (k - 1) p ++
          [.genReq k (promptFrom o 1 (k - 1) p)],
        exit := .stoppedBeforeDesc (2 * k),
        errorShown := none,
        completionSignaled := ! o.stopAt (2 * k),
        isGeneratingAfter := false } := by
    simp only [runIterations, hunroll]
  rw [hres]
  refine ⟨?_, ?_, ?_, ?_, ?_, rfl, ?_, rfl, ?_⟩
  · simp [fullRecs_length]
    omega
  · simp [hgo]
  · intro v hmem
    rcases List.mem_append.mp hmem with hmem | hmem
    · have := mem_fullEvs o (k - 1) 1 p _ hmem
      simp [eventIdx] at this
      omega
    · rw [List.mem_singleton] at hmem
      exact Event.noConfusion hmem
  · intro q hmem
    rcases List.mem_append.mp hmem with hmem | hmem
    · have := mem_fullEvs o (k - 1) 1 p _ hmem
      simp [eventIdx] at this
      omega
    · rw [List.mem_singleton] at hmem
      simp only [Event.genReq.injEq] at hmem
      omega
  · intro rec hmem
    rcases List.mem_append.mp hmem with hmem | hmem
    · have := mem_fullRecs o (k - 1) 1 p rec hmem
      omega
    · rw [List.mem_singleton] at hmem
      subst hmem
      exact le_refl k
  · intro e h
    exact RunExit.noConfusion h
  · simp [hstop2 (2 * k) (by omega)]

/-- Witness for C4 at k = 2, N = 3 with `stopOracle` (stop requested during
the image generation of iteration 2). -/
theorem C4_witness :
    (runIterations stopOracle 3 "seed").records.length = 2 ∧
    (runIterations stopOracle 3 "seed").records.getLast? =
      some { index := 2, image := some "img" } ∧
    (∀ u, Event.descReq 2 u ∉ (runIterations stopOracle 3 "seed").events) ∧
    (∀ q, Event.genReq 3 q ∉ (runIterations stopOracle 3 "seed").events) ∧
    (∀ rec ∈ (runIterations stopOracle 3 "seed").records, rec.index ≤ 2) ∧
    (runIterations stopOracle 3 "seed").exit = .stoppedBeforeDesc 4 ∧
    (∀ e, (runIterations stopOracle 3 "seed").exit ≠ .failed e) ∧
    (runIterations stopOracle 3 "seed").errorShown = none ∧
    (runIterations stopOracle 3 "seed").completionSignaled = false :=
  C4_stop_before_desc stopOracle 3 2 "seed" (by decide) (by decide)
    (fun _ _ _ => rfl) (fun _ _ _ => rfl)
    (fun c hc => by
      simp only [stopOracle, decide_eq_false_iff_not]
      omega)
    (fun c hc => by
      simp only [stopOracle, decide_eq_true_eq]
      omega)

theorem runIterations_events (o : Oracle) (N : Nat) (p : String) :
    (runIterations o N p).events = (runFrom o N 1 0 p).2.1 := by
  cases ht : (runFrom o N 1 0 p).2.2 <;> simp [runIterations, ht]

/-- When the loop is entered at iteration `i` (not past the bound, stop flag
down), the first request it issues is the image generation of iteration `i`
with the current prompt. -/
theorem runFrom_head_event (o : Oracle) (N i c : Nat) (p : String)
    (hiN : i ≤ N) (h0 : o.stopAt c = false) :
    ∃ rest, (runFrom o N i c p).2.1 = .genReq i p :: rest := by
  rw [runFrom]
  cases hg : o.gen i p with
  | error e => exact ⟨[], by simp [Nat.not_lt.mpr hiN, h0, hg]⟩
  | ok u =>
      by_cases hi : i < N
      · by_cases hs : o.stopAt (c + 1)
        · exact ⟨[], by simp [Nat.not_lt.mpr hiN, h0, hg, hi, hs]⟩
        · cases hd : o.desc i u with
          | error e =>
              exact ⟨[.descReq i u],
                by simp [Nat.not_lt.mpr hiN, h0, hg, hi, hs, hd]⟩
          | ok d =>
              exact ⟨.descReq i u :: (runFrom o N (i + 1) (c + 2) d).2.1,
                by simp [Nat.not_lt.mpr hiN, h0, hg, hi, hs, hd]⟩
      · exact ⟨[], by simp [Nat.not_lt.mpr hiN, h0, hg, hi]⟩

theorem findSome?_append_of_none {α β : Type} (f : α → Option β)
    (l₁ l₂ : List α) (h : ∀ x ∈ l₁, f x = none) :
    (l₁ ++ l₂).findSome? f = l₂.findSome? f := by
  induction l₁ with
  | nil => rfl
  | cons x xs ih =>
      rw [List.cons_append, List.findSome?_cons]
      rw [h x (List.mem_cons_self x xs)]
      exact ih fun y hy => h y (List.mem_cons_of_mem x hy)

/-- C5: with no stop request and all calls of iterations before `i`
succeeding, when the image of iteration `i` resolves to `u` and its
description resolves to `d`, the generation request issued for iteration
`i + 1` carries exactly `d` as its prompt (and it is the first, and only,
generation request for that iteration the events contain). -/
theorem C5_description_feeds_next_prompt (o : Oracle) (N i : Nat) (p : String)
    (h1 : 1 ≤ i) (hiN : i < N)
    (hstop : ∀ c, o.stopAt c = false)
    (hgen : ∀ j q, j < i → succeeds (o.gen j q) = true)
    (hdesc : ∀ j u, j < i → succeeds (o.desc j u) = true)
    (u d : String)
    (hu : o.gen i (promptFrom o 1 (i - 1) p) = .ok u)
    (hd : o.desc i u = .ok d) :
    Event.genReq (i + 1) d ∈ (runIterations o N p).events ∧
    genPromptOf (runIterations o N p).events (i + 1) = some d := by
  have e1 : 1 + (i - 1) = i := by omega
  have hunroll := runFrom_unroll o N (i - 1) 1 0 p (by omega)
    (fun j _ => hstop _) (fun j q hj1 hj2 => hgen j q (by omega))
    (fun j v hj1 hj2 => hdesc j v (by omega))
  rw [e1] at hunroll
  have hstep := runFrom_stepOk o N i (0 + 2 * (i - 1))
    (promptFrom o 1 (i - 1) p) u d hiN (hstop _) (hstop _) hu hd
  rw [hstep] at hunroll
  obtain ⟨rest, hhead⟩ := runFrom_head_event o N (i + 1)
    (0 + 2 * (i - 1) + 2) d (by omega) (hstop _)
  rw [hhead] at hunroll
  have hevs : (runIterations o N p).events =
      fullEvs o 1 (i - 1) p ++
        .genReq i (promptFrom o 1 (i - 1) p) :: .descReq i u ::
          .genReq (i + 1) d :: rest := by
    rw [runIterations_events, hunroll]
  rw [hevs]
  constructor
  · exact List.mem_append_right _
      (List.mem_cons_of_mem _ (List.mem_cons_of_mem _ (List.mem_cons_self _ _)))
  · unfold genPromptOf
    rw [findSome?_append_of_none]
    · rw [List.findSome?_cons, List.findSome?_cons, List.findSome?_cons]
      have hne : ¬ i = i + 1 := by omega
      simp [hne]
    · intro ev hmem
      have := mem_fullEvs o (i - 1) 1 p ev hmem
      cases ev with
      | genReq j q =>
          simp only [eventIdx] at this
          have : ¬ j = i + 1 := by omega
          simp [this]
      | descReq j v => rfl

/-- Witness for C5 with `happyOracle` at i = 1, N = 3: the description of
iteration 1 is fed verbatim as the prompt of iteration 2. -/
theorem C5_witness :
    Event.genReq 2 "a drawing 1" ∈ (runIterations happyOracle 3 "seed").events ∧
    genPromptOf (runIterations happyOracle 3 "seed").events 2 =
      some "a drawing 1" :=
  C5_description_feeds_next_prompt happyOracle 3 1 "seed" (by decide) (by decide)
    (fun _ => rfl) (fun j q hj => rfl) (fun j v hj => rfl)
    "img1" "a drawing 1" rfl rfl

/-- C10: while `isGenerating` is set, a submission is ignored entirely — for
every input, even an invalid one, the outcome is `ignored` (so no validation
verdict and no run), and no network request is issued; `runIterations` always
leaves `isGenerating` cleared whatever the exit (completion, stop, or
failure); and with the flag down a submission is never ignored (it is
validated and either refused or started). -/
theorem C10_single_run_guard (o : Oracle) (promptRaw : String)
    (it : Option Int) (keyRaw : String) (N : Nat) (q : String) :
    handleFormSubmit true o promptRaw it keyRaw = .ignored ∧
    submitEvents (handleFormSubmit true o promptRaw it keyRaw) = [] ∧
    (runIterations o N q).isGeneratingAfter = false ∧
    handleFormSubmit false o promptRaw it keyRaw ≠ .ignored := by
  refine ⟨rfl, rfl, ?_, ?_⟩
  · cases ht : (runFrom o N 1 0 q).2.2 <;> simp [runIterations, ht]
  · unfold handleFormSubmit
    cases hv : validateInputs (jsTrim promptRaw) it (jsTrim keyRaw) <;> simp [hv]

/-- The three checks of `validateInputs` pass exactly when the (trimmed)
prompt is non-empty, the parsed iteration count is a number in [1,10], and
the (trimmed) key is non-empty with the `sk-` prefix. -/
theorem validateInputs_none_iff (p : String) (it : Option Int) (k : String) :
    validateInputs p it k = none ↔
      (p ≠ "" ∧ (∃ n, it = some n ∧ 1 ≤ n ∧ n ≤ 10) ∧ k ≠ "" ∧
        jsStartsWith k "sk-" = true) := by
  unfold validateInputs
  constructor
  · intro h
    split_ifs at h with h1 h2 h3
    refine ⟨h1, ?_, ?_, ?_⟩
    · cases hit : it with
      | none => rw [hit] at h2; exact absurd (Or.inl rfl) h2
      | some n =>
          rw [hit] at h2
          refine ⟨n, rfl, ?_, ?_⟩
          · by_contra hc
            exact h2 (Or.inr (Or.inr (Or.inl (by simp [Option.getD]; omega))))
          · by_contra hc
            exact h2 (Or.inr (Or.inr (Or.inr (by simp [Option.getD]; omega))))
    · exact (not_or.mp h3).1
    · have := (not_or.mp h3).2
      exact not_not.mp this
  · rintro ⟨hp, ⟨n, hn, h1n, h10n⟩, hk, hks⟩
    split_ifs with h1 h2 h3
    · exact absurd h1 hp
    · exfalso
      subst hn
      rcases h2 with h | h | h | h
      · exact Option.noConfusion h
      · rw [Option.some.injEq] at h; omega
      · simp [Option.getD] at h; omega
      · simp [Option.getD] at h; omega
    · exfalso
      rcases h3 with h | h
      · exact hk h
      · exact h hks
    · rfl

/-- C2: with no run in flight, submission is refused with a validation error
(and no network request issued) exactly when the trimmed prompt is empty, or
the parsed iteration count is missing or outside [1,10], or the trimmed
credential is empty or lacks the `sk-` prefix; when all three checks pass,
`validateInputs` returns no error and the run starts. -/
theorem C2_validation (o : Oracle) (promptRaw : String) (it : Option Int)
    (keyRaw : String) :
    ((jsTrim promptRaw = "" ∨ (∀ n : Int, it = some n → n < 1 ∨ 10 < n) ∨
        jsTrim keyRaw = "" ∨ ¬ jsStartsWith (jsTrim keyRaw) "sk-") ↔
      ∃ m, handleFormSubmit false o promptRaw it keyRaw = .invalid m) ∧
    (∀ m, handleFormSubmit false o promptRaw it keyRaw = .invalid m →
      submitEvents (handleFormSubmit false o promptRaw it keyRaw) = []) ∧
    (¬ (jsTrim promptRaw = "" ∨ (∀ n : Int, it = some n → n < 1 ∨ 10 < n) ∨
        jsTrim keyRaw = "" ∨ ¬ jsStartsWith (jsTrim keyRaw) "sk-") →
      validateInputs (jsTrim promptRaw) it (jsTrim keyRaw) = none ∧
      ∃ r, handleFormSubmit false o promptRaw it keyRaw = .ran r) := by
  have hsub : handleFormSubmit false o promptRaw it keyRaw =
      (match validateInputs (jsTrim promptRaw) it (jsTrim keyRaw) with
        | some m => SubmitOutcome.invalid m
        | none =>
            SubmitOutcome.ran
              (runIterations o (it.getD 0).toNat (jsTrim promptRaw))) := rfl
  have hbadIff : (jsTrim promptRaw = "" ∨
        (∀ n : Int, it = some n → n < 1 ∨ 10 < n) ∨
        jsTrim keyRaw = "" ∨ ¬ jsStartsWith (jsTrim keyRaw) "sk-") ↔
      ¬ (jsTrim promptRaw ≠ "" ∧ (∃ n, it = some n ∧ 1 ≤ n ∧ n ≤ 10) ∧
        jsTrim keyRaw ≠ "" ∧ jsStartsWith (jsTrim keyRaw) "sk-" = true) := by
    constructor
    · rintro (h | h | h | h) ⟨g1, g2, g3, g4⟩
      · exact g1 h
      · obtain ⟨n, hn, h1, h10⟩ := g2
        have := h n hn
        omega
      · exact g3 h
      · exact h g4
    · intro hng
      by_contra hnb
      push_neg at hnb
      obtain ⟨hp, hex, hk, hks⟩ := hnb
      obtain ⟨n, hn, h1, h10⟩ := hex
      exact hng ⟨hp, ⟨n, hn, h1, h10⟩, hk, hks⟩
  refine ⟨?_, ?_, ?_⟩
  · rw [hbadIff]
    cases hv : validateInputs (jsTrim promptRaw) it (jsTrim keyRaw) with
    | none =>
        rw [hv] at hsub
        constructor
        · intro hng
          exact absurd ((validateInputs_none_iff _ _ _).mp hv) hng
        · rintro ⟨m, hm⟩
          rw [hsub] at hm
          exact SubmitOutcome.noConfusion hm
    | some m0 =>
        rw [hv] at hsub
        constructor
        · intro _
          exact ⟨m0, hsub⟩
        · rintro _ hgood
          rw [(validateInputs_none_iff _ _ _).mpr hgood] at hv
          exact Option.noConfusion hv
  · intro m hm
    rw [hm]
    rfl
  · intro hng
    have hgood := not_not.mp (mt hbadIff.mpr hng)
    have hv := (validateInputs_none_iff _ _ _).mpr hgood
    rw [hv] at hsub
    exact ⟨hv, ⟨_, hsub⟩⟩

/-- Witness for C2: iteration count 11 is refused; prompt "a cat",
3 iterations and key "sk-key" pass validation and start the run. -/
theorem C2_witness :
    (∃ m, handleFormSubmit false happyOracle "" (some 11) "sk-key" =
      .invalid m) ∧
    (validateInputs (jsTrim "a cat") (some 3) (jsTrim "sk-key") = none ∧
      ∃ r, handleFormSubmit false happyOracle "a cat" (some 3) "sk-key" =
        .ran r) := by
  constructor
  · exact (C2_validation happyOracle "" (some 11) "sk-key").1.mp (Or.inl rfl)
  · exact (C2_validation happyOracle "a cat" (some 3) "sk-key").2.2
      (fun h => by
        rcases h with h | h | h | h
        · exact absurd h (by decide)
        · have := h 3 rfl
          omega
        · exact absurd h (by decide)
        · exact h (by decide))

/-- C6 counterexample: on a non-success response whose body is not parseable
JSON, the operation does not fail with the generic message — `response.json()`
itself rejects and the parse error propagates, which is not a thrown
`Error`-with-message at all; moreover a present but empty `error.message`
field also falls back to the generic message rather than being used. -/
theorem C6_counterexample :
    generateImage ⟨false, JsBody.invalid, ""⟩ =
      .error ReqFailure.jsonParseError ∧
    ReqFailure.jsonParseError.isMsg = false ∧
    generateImage ⟨false, JsBody.parsed (some (some "")), ""⟩ =
      .error (.msg "Failed to generate image") :=
  ⟨rfl, rfl, rfl⟩

/-- C6 (amended): for every non-success response, when the body parses and
`error.message` is present and non-empty the operation fails with exactly
that message; when the body parses but the field is absent (or empty) it
fails with the generic message ("Failed to generate image" /
"Failed to describe image"); when the body is not parseable JSON the JSON
parse error propagates instead of the generic message. -/
theorem C6_error_envelope (body : JsBody) (v : String) :
    (body = .invalid →
      generateImage ⟨false, body, v⟩ = .error .jsonParseError ∧
      describeImage ⟨false, body, v⟩ = .error .jsonParseError) ∧
    (∀ m, m ≠ "" → body = .parsed (some (some m)) →
      generateImage ⟨false, body, v⟩ = .error (.msg m) ∧
      describeImage ⟨false, body, v⟩ = .error (.msg m)) ∧
    ((body = .parsed none ∨ body = .parsed (some none) ∨
        body = .parsed (some (some ""))) →
      generateImage ⟨false, body, v⟩ =
        .error (.msg "Failed to generate image") ∧
      describeImage ⟨false, body, v⟩ =
        .error (.msg "Failed to describe image")) := by
  refine ⟨?_, ?_, ?_⟩
  · rintro rfl
    exact ⟨rfl, rfl⟩
  · rintro m hm rfl
    constructor <;> simp [generateImage, describeImage, requestFailure, hm]
  · rintro (rfl | rfl | rfl) <;> exact ⟨rfl, rfl⟩

/-- Witness for C6 (amended): a parsed envelope with message "boom" is
surfaced verbatim; an unparseable body surfaces the parse error. -/
theorem C6_witness :
    ("boom" ≠ "" ∧
      generateImage ⟨false, JsBody.parsed (some (some "boom")), ""⟩ =
        .error (.msg "boom") ∧
      describeImage ⟨false, JsBody.parsed (some (some "boom")), ""⟩ =
        .error (.msg "boom")) ∧
    (generateImage ⟨false, JsBody.invalid, ""⟩ = .error .jsonParseError ∧
      describeImage ⟨false, JsBody.invalid, ""⟩ = .error .jsonParseError) := by
  constructor
  · refine ⟨by decide, ?_⟩
    exact (C6_error_envelope (JsBody.parsed (some (some "boom"))) "").2.1
      "boom" (by decide) rfl
  · exact (C6_error_envelope JsBody.invalid "").1 rfl

/-! ## Document exporter (src/app.js 395-519)

`handleExportPDF` walks the rendered `.iteration-card` elements and lays out
an A4 portrait document with `margin = 15`: a title block, then per card a
heading `Iteration n`, the image scaled to the content width (height
`naturalHeight / naturalWidth * contentWidth`), and, unless the
`.description-text` content is one of the placeholder sentinels, a
`Description:` label followed by the text wrapped by `splitTextToSize`.
Before the heading a page break is inserted when `y > pageHeight - 100`,
before the image when `y + imgHeight > pageHeight - margin`, and before the
description when `y > pageHeight - 50`.  `getImageData` rasterizes non-data
urls through a canvas and can reject; that per-image failure is caught,
logged, and the image skipped.  Geometry is modelled over `ℚ`; the page
size and the line-wrapping function of the PDF library are parameters. -/

/-- An `.iteration-image` element as the exporter reads it: natural
dimensions, and the result of `getImageData` (`none` when its promise
rejects). -/
structure PdfImage : Type where
  naturalWidth : ℚ
  naturalHeight : ℚ
  encoded : Option String
deriving DecidableEq, Repr

/-- One rendered iteration card as the exporter queries it. -/
structure PdfCard : Type where
  image : Option PdfImage
  descText : Option String
deriving DecidableEq, Repr

/-- One drawing command emitted into the document. -/
inductive PdfItem : Type
  | text (s : String) (page : Nat) (y : ℚ) : PdfItem
  | image (page : Nat) (y : ℚ) (w h : ℚ) (data : String) : PdfItem
  | wrappedText (s : String) (lines : Nat) (page : Nat) (y : ℚ) : PdfItem
deriving DecidableEq, Repr

/-- The layout cursor: current page (1-based; `addPage` increments it) and
vertical position. -/
structure LayoutSt : Type where
  page : Nat
  y : ℚ
deriving DecidableEq, Repr

/-- `const margin = 15`. -/
def pdfMargin : ℚ := 15

/-- `contentWidth = pageWidth - margin * 2`. -/
def contentWidth (pageW : ℚ) : ℚ := pageW - 2 * pdfMargin

/-- `imgHeight = (naturalHeight / naturalWidth) * imgWidth` with
`imgWidth = contentWidth`. -/
def imgScaledHeight (pageW : ℚ) (img : PdfImage) : ℚ :=
  img.naturalHeight / img.naturalWidth * contentWidth pageW

/-- The page-break check before the heading:
`if (yPosition > pageHeight - 100) addPage`. -/
def headingStep (pageH : ℚ) (st : LayoutSt) : LayoutSt :=
  if st.y > pageH - 100 then ⟨st.page + 1, pdfMargin⟩ else st

/-- The image block: skipped entirely when there is no `.iteration-image`
or when `getImageData` rejected (the `catch` only logs); otherwise a page
break when `yPosition + imgHeight > pageHeight - margin`, then the image and
`yPosition += imgHeight + 10`. -/
def imageStep (pageW pageH : ℚ) (c : PdfCard) (st : LayoutSt) :
    LayoutSt × List PdfItem :=
  match c.image with
  | none => (st, [])
  | some img =>
      match img.encoded with
      | none => (st, [])
      | some data =>
          let h := imgScaledHeight pageW img
          let st1 := if st.y + h > pageH - pdfMargin then
              (⟨st.page + 1, pdfMargin⟩ : LayoutSt) else st
          (⟨st1.page, st1.y + h + 10⟩,
            [.image st1.page st1.y (contentWidth pageW) h data])

/-- The two placeholder texts the export skips:
`'Generating...'` and `'Generation complete!'`. -/
def isSentinel (s : String) : Bool :=
  s = "Generating..." || s = "Generation complete!"

/-- The description block: emitted only when a `.description-text` node
exists and its content is not a placeholder; a page break when
`yPosition > pageHeight - 50`, then the label, the wrapped text, and
`yPosition += splitText.length * 5 + 15`. -/
def descStep (pageH : ℚ) (split : String → Nat) (c : PdfCard)
    (st : LayoutSt) : LayoutSt × List PdfItem :=
  match c.descText with
  | none => (st, [])
  | some t =>
      if isSentinel t then (st, [])
      else
        let st1 := if st.y > pageH - 50 then
            (⟨st.page + 1, pdfMargin⟩ : LayoutSt) else st
        let lines := split t
        (⟨st1.page, st1.y + 7 + (lines : ℚ) * 5 + 15⟩,
          [.text "Description:" st1.page st1.y,
            .wrappedText t lines st1.page (st1.y + 7)])

/-- The loop body for one card `n` (1-based): heading check, heading
(`yPosition += 10`), image block, description block. -/
def exportCard (pageW pageH : ℚ) (split : String → Nat) (n : Nat)
    (c : PdfCard) (st : LayoutSt) : LayoutSt × List PdfItem :=
  let stH := headingStep pageH st
  let stH2 : LayoutSt := ⟨stH.page, stH.y + 10⟩
  let im := imageStep pageW pageH c stH2
  let de := descStep pageH split c im.1
  (de.1, .text ("Iteration " ++ toString n) stH.page stH.y :: (im.2 ++ de.2))

/-- The `for` loop over the cards, numbering them from `n`. -/
def exportCardsFrom (pageW pageH : ℚ) (split : String → Nat) :
    List PdfCard → Nat → LayoutSt → LayoutSt × List PdfItem
  | [], _, st => (st, [])
  | c :: cs, n, st =>
      let r1 := exportCard pageW pageH split n c st
      let r2 := exportCardsFrom pageW pageH split cs (n + 1) r1.1
      (r2.1, r1.2 ++ r2.2)

/-- `handleExportPDF`: the title block on page 1 (`margin + 10` and
`margin + 17`), then the cards starting at `yPosition = margin + 30`. -/
def handleExportPDF (pageW pageH : ℚ) (split : String → Nat) (date : String)
    (cards : List PdfCard) : LayoutSt × List PdfItem :=
  let res := exportCardsFrom pageW pageH split cards 1 ⟨1, pdfMargin + 30⟩
  (res.1,
    .text "Vibe Coding - Creative Journey" 1 (pdfMargin + 10) ::
      .text ("Generated on " ++ date) 1 (pdfMargin + 17) :: res.2)

/-- Number of pages of the finished document (1 plus the `addPage` calls). -/
def pageCount (res : LayoutSt × List PdfItem) : Nat := res.1.page

/-- The document with the image payloads erased: everything except the
embedded image bytes. -/
def textContent (items : List PdfItem) : List PdfItem :=
  items.filter fun it =>
    match it with
    | .image _ _ _ _ _ => false
    | _ => true

/-- C7: during export, each card runs an independent overflow check before
its heading, before its image, and before its description block.  Whenever
the scaled image height would push the cursor past the usable height
(`pageHeight - margin`), a page break is inserted and the image is drawn at
the top margin of the fresh page (otherwise it is drawn at the current
cursor, which then fits); the heading check (`y > pageHeight - 100`) and the
description check (`y > pageHeight - 50`) likewise move their block to the
top of a fresh page. -/
theorem C7_page_break (pageW pageH : ℚ) (split : String → Nat) (n : Nat)
    (c : PdfCard) (st : LayoutSt) :
    (∀ img data, c.image = some img → img.encoded = some data →
      (((headingStep pageH st).y + 10 + imgScaledHeight pageW img >
          pageH - pdfMargin →
        PdfItem.image ((headingStep pageH st).page + 1) pdfMargin
          (contentWidth pageW) (imgScaledHeight pageW img) data ∈
            (exportCard pageW pageH split n c st).2) ∧
       ((headingStep pageH st).y + 10 + imgScaledHeight pageW img ≤
          pageH - pdfMargin →
        PdfItem.image (headingStep pageH st).page
          ((headingStep pageH st).y + 10) (contentWidth pageW)
          (imgScaledHeight pageW img) data ∈
            (exportCard pageW pageH split n c st).2))) ∧
    (st.y > pageH - 100 →
      PdfItem.text ("Iteration " ++ toString n) (st.page + 1) pdfMargin ∈
        (exportCard pageW pageH split n c st).2) ∧
    (∀ t, c.descText = some t → isSentinel t = false →
      (imageStep pageW pageH c ⟨(headingStep pageH st).page,
          (headingStep pageH st).y + 10⟩).1.y > pageH - 50 →
      PdfItem.text "Description:"
        ((imageStep pageW pageH c ⟨(headingStep pageH st).page,
            (headingStep pageH st).y + 10⟩).1.page + 1) pdfMargin ∈
          (exportCard pageW pageH split n c st).2) := by
  refine ⟨?_, ?_, ?_⟩
  · intro img data himg henc
    constructor
    · intro hover
      simp only [exportCard, imageStep, himg, henc]
      rw [if_pos hover]
      simp
    · intro hfit
      simp only [exportCard, imageStep, himg, henc]
      rw [if_neg (not_lt.mpr hfit)]
      simp
  · intro hover
    simp only [exportCard, headingStep]
    rw [if_pos hover]
    simp
  · intro t ht hs hover
    simp only [exportCard, descStep, ht, hs]
    rw [if_pos hover]
    simp

/-- Witness for C7 on an A4 page (210 × 297): a 2:1 portrait image from
cursor y = 45 overflows and lands at the top of page 2; a heading from
y = 200 breaks to page 2; the following description block breaks to page 3;
and a square image from y = 45 fits and stays at y = 55 of page 1. -/
theorem C7_witness :
    ((headingStep 297 ⟨1, 45⟩).y + 10 +
        imgScaledHeight 210 ⟨1024, 2048, some "d"⟩ > 297 - pdfMargin ∧
      PdfItem.image ((headingStep 297 ⟨1, 45⟩).page + 1) pdfMargin
        (contentWidth 210) (imgScaledHeight 210 ⟨1024, 2048, some "d"⟩) "d" ∈
        (exportCard 210 297 (fun _ => 3) 1
          ⟨some ⟨1024, 2048, some "d"⟩, some "hi"⟩ ⟨1, 45⟩).2) ∧
    ((200 : ℚ) > 297 - 100 ∧
      PdfItem.text ("Iteration " ++ toString 1) (1 + 1) pdfMargin ∈
        (exportCard 210 297 (fun _ => 3) 1
          ⟨some ⟨1024, 2048, some "d"⟩, some "hi"⟩ ⟨1, 200⟩).2) ∧
    ((imageStep 210 297 ⟨some ⟨1024, 2048, some "d"⟩, some "hi"⟩
        ⟨(headingStep 297 ⟨1, 45⟩).page, (headingStep 297 ⟨1, 45⟩).y + 10⟩).1.y >
        297 - 50 ∧
      PdfItem.text "Description:"
        ((imageStep 210 297 ⟨some ⟨1024, 2048, some "d"⟩, some "hi"⟩
          ⟨(headingStep 297 ⟨1, 45⟩).page,
            (headingStep 297 ⟨1, 45⟩).y + 10⟩).1.page + 1) pdfMargin ∈
        (exportCard 210 297 (fun _ => 3) 1
          ⟨some ⟨1024, 2048, some "d"⟩, some "hi"⟩ ⟨1, 45⟩).2) ∧
    ((headingStep 297 ⟨1, 45⟩).y + 10 +
        imgScaledHeight 210 ⟨1024, 1024, some "d"⟩ ≤ 297 - pdfMargin ∧
      PdfItem.image (headingStep 297 ⟨1, 45⟩).page
        ((headingStep 297 ⟨1, 45⟩).y + 10) (contentWidth 210)
        (imgScaledHeight 210 ⟨1024, 1024, some "d"⟩) "d" ∈
        (exportCard 210 297 (fun _ => 3) 1
          ⟨some ⟨1024, 1024, some "d"⟩, none⟩ ⟨1, 45⟩).2) := by
  refine ⟨⟨?_, ?_⟩, ⟨?_, ?_⟩, ⟨?_, ?_⟩, ⟨?_, ?_⟩⟩
  · norm_num [headingStep, imgScaledHeight, contentWidth, pdfMargin]
  · exact ((C7_page_break 210 297 (fun _ => 3) 1
      ⟨some ⟨1024, 2048, some "d"⟩, some "hi"⟩ ⟨1, 45⟩).1
      ⟨1024, 2048, some "d"⟩ "d" rfl rfl).1
      (by norm_num [headingStep, imgScaledHeight, contentWidth, pdfMargin])
  · norm_num
  · exact (C7_page_break 210 297 (fun _ => 3) 1
      ⟨some ⟨1024, 2048, some "d"⟩, some "hi"⟩ ⟨1, 200⟩).2.1
      (by norm_num)
  · norm_num [imageStep, headingStep, imgScaledHeight, contentWidth, pdfMargin]
  · exact (C7_page_break 210 297 (fun _ => 3) 1
      ⟨some ⟨1024, 2048, some "d"⟩, some "hi"⟩ ⟨1, 45⟩).2.2 "hi" rfl rfl
      (by norm_num [imageStep, headingStep, imgScaledHeight, contentWidth,
        pdfMargin])
  · norm_num [headingStep, imgScaledHeight, contentWidth, pdfMargin]
  · exact ((C7_page_break 210 297 (fun _ => 3) 1
      ⟨some ⟨1024, 1024, some "d"⟩, none⟩ ⟨1, 45⟩).1
      ⟨1024, 1024, some "d"⟩ "d" rfl rfl).2
      (by norm_num [headingStep, imgScaledHeight, contentWidth, pdfMargin])

theorem imageStep_encNone (pageW pageH : ℚ) (c : PdfCard) (img : PdfImage)
    (himg : c.image = some img) (henc : img.encoded = none) (st : LayoutSt) :
    imageStep pageW pageH c st = (st, []) := by
  simp [imageStep, himg, henc]

theorem imageStep_noImage (pageW pageH : ℚ) (c : PdfCard)
    (himg : c.image = none) (st : LayoutSt) :
    imageStep pageW pageH c st = (st, []) := by
  simp [imageStep, himg]

/-- A card whose `getImageData` rejects lays out exactly like the same card
without an image element. -/
theorem exportCard_encNone (pageW pageH : ℚ) (split : String → Nat) (n : Nat)
    (c : PdfCard) (img : PdfImage)
    (himg : c.image = some img) (henc : img.encoded = none) (st : LayoutSt) :
    exportCard pageW pageH split n c st =
      exportCard pageW pageH split n { c with image := none } st := by
  simp only [exportCard]
  rw [imageStep_encNone pageW pageH c img himg henc,
    imageStep_noImage pageW pageH { c with image := none } rfl]
  rfl

/-- Replacing one card by a card with the same per-card layout leaves the
whole export unchanged. -/
theorem exportCardsFrom_set_congr (pageW pageH : ℚ) (split : String → Nat) :
    ∀ (cs : List PdfCard) (i : Nat) (hi : i < cs.length) (c' : PdfCard),
    (∀ n st, exportCard pageW pageH split n (cs.get ⟨i, hi⟩) st =
      exportCard pageW pageH split n c' st) →
    ∀ n st, exportCardsFrom pageW pageH split (cs.set i c') n st =
      exportCardsFrom pageW pageH split cs n st := by
  intro cs
  induction cs with
  | nil => intro i hi; simp at hi
  | cons c rest ih =>
      intro i hi c' hcc n st
      cases i with
      | zero =>
          rw [List.set_cons_zero]
          simp only [exportCardsFrom]
          rw [← hcc n st]
          rfl
      | succ j =>
          rw [List.set_cons_succ]
          simp only [exportCardsFrom]
          rw [ih j (by simpa using hi) c' hcc (n + 1)
            (exportCard pageW pageH split n c st).1]

/-- Everything a card emits is in the output of any export run containing
that card (at its position-dependent cursor). -/
theorem exportCard_sub_exportCardsFrom (pageW pageH : ℚ)
    (split : String → Nat) :
    ∀ (cs : List PdfCard) (j : Nat) (hj : j < cs.length) (n : Nat)
      (st : LayoutSt),
    ∃ st', ∀ it,
      it ∈ (exportCard pageW pageH split (n + j) (cs.get ⟨j, hj⟩) st').2 →
      it ∈ (exportCardsFrom pageW pageH split cs n st).2 := by
  intro cs
  induction cs with
  | nil => intro j hj; simp at hj
  | cons c rest ih =>
      intro j hj n st
      cases j with
      | zero =>
          refine ⟨st, fun it hit => ?_⟩
          simp only [exportCardsFrom]
          exact List.mem_append_left _ hit
      | succ j' =>
          obtain ⟨st', hsub⟩ := ih j' (by simpa using hj) (n + 1)
            (exportCard pageW pageH split n c st).1
          refine ⟨st', fun it hit => ?_⟩
          simp only [exportCardsFrom]
          refine List.mem_append_right _ (hsub it ?_)
          rw [show n + 1 + j' = n + (j' + 1) from by omega]
          exact hit

/-- The heading of card `n` is always emitted. -/
theorem heading_mem_exportCard (pageW pageH : ℚ) (split : String → Nat)
    (n : Nat) (c : PdfCard) (st : LayoutSt) :
    ∃ pg y, PdfItem.text ("Iteration " ++ toString n) pg y ∈
      (exportCard pageW pageH split n c st).2 :=
  ⟨(headingStep pageH st).page, (headingStep pageH st).y,
    List.mem_cons_self _ _⟩

/-- A non-placeholder description is always emitted. -/
theorem desc_mem_exportCard (pageW pageH : ℚ) (split : String → Nat)
    (n : Nat) (c : PdfCard) (st : LayoutSt) (t : String)
    (ht : c.descText = some t) (hs : isSentinel t = false) :
    ∃ pg y, PdfItem.wrappedText t (split t) pg y ∈
      (exportCard pageW pageH split n c st).2 := by
  by_cases hov : (imageStep pageW pageH c ⟨(headingStep pageH st).page,
      (headingStep pageH st).y + 10⟩).1.y > pageH - 50
  · refine ⟨(imageStep pageW pageH c ⟨(headingStep pageH st).page,
        (headingStep pageH st).y + 10⟩).1.page + 1, pdfMargin + 7, ?_⟩
    simp [exportCard, descStep, ht, hs, hov]
  · refine ⟨(imageStep pageW pageH c ⟨(headingStep pageH st).page,
        (headingStep pageH st).y + 10⟩).1.page,
      (imageStep pageW pageH c ⟨(headingStep pageH st).page,
        (headingStep pageH st).y + 10⟩).1.y + 7, ?_⟩
    simp [exportCard, descStep, ht, hs, hov]

/-- C8: when `getImageData` rejects for the image of record `i`, only that
image is skipped: the whole export equals the export of the same records
with record `i` having no image element (same cursor course, so every other
record is processed identically and the document is still produced); the
heading of every record, including record `i`, is still emitted, and the
non-placeholder description of record `i` is still emitted. -/
theorem C8_export_isolated (pageW pageH : ℚ) (split : String → Nat)
    (date : String) (cards : List PdfCard) (i : Nat) (hi : i < cards.length)
    (img : PdfImage) (himg : (cards.get ⟨i, hi⟩).image = some img)
    (henc : img.encoded = none) :
    handleExportPDF pageW pageH split date cards =
      handleExportPDF pageW pageH split date
        (cards.set i { cards.get ⟨i, hi⟩ with image := none }) ∧
    (∀ j, j < cards.length →
      ∃ pg y, PdfItem.text ("Iteration " ++ toString (1 + j)) pg y ∈
        (handleExportPDF pageW pageH split date cards).2) ∧
    (∀ t, (cards.get ⟨i, hi⟩).descText = some t → isSentinel t = false →
      ∃ pg y, PdfItem.wrappedText t (split t) pg y ∈
        (handleExportPDF pageW pageH split date cards).2) := by
  refine ⟨?_, ?_, ?_⟩
  · have hset := exportCardsFrom_set_congr pageW pageH split cards i hi
      { cards.get ⟨i, hi⟩ with image := none }
      (fun n st => exportCard_encNone pageW pageH split n _ img himg henc st)
      1 ⟨1, pdfMargin + 30⟩
    simp only [handleExportPDF, hset]
  · intro j hj
    obtain ⟨st', hsub⟩ := exportCard_sub_exportCardsFrom pageW pageH split
      cards j hj 1 ⟨1, pdfMargin + 30⟩
    obtain ⟨pg, y, hmem⟩ := heading_mem_exportCard pageW pageH split (1 + j)
      (cards.get ⟨j, hj⟩) st'
    refine ⟨pg, y, ?_⟩
    simp only [handleExportPDF]
    exact List.mem_cons_of_mem _ (List.mem_cons_of_mem _ (hsub _ hmem))
  · intro t ht hs
    obtain ⟨st', hsub⟩ := exportCard_sub_exportCardsFrom pageW pageH split
      cards i hi 1 ⟨1, pdfMargin + 30⟩
    obtain ⟨pg, y, hmem⟩ := desc_mem_exportCard pageW pageH split (1 + i)
      (cards.get ⟨i, hi⟩) st' t ht hs
    refine ⟨pg, y, ?_⟩
    simp only [handleExportPDF]
    exact List.mem_cons_of_mem _ (List.mem_cons_of_mem _ (hsub _ hmem))

/-- Witness for C8: a single card whose image fails to encode; its heading
and description are still exported and the export equals the image-less
layout. -/
theorem C8_witness :
    (handleExportPDF 210 297 (fun _ => 2) "today"
        [⟨some ⟨100, 100, none⟩, some "hello"⟩] =
      handleExportPDF 210 297 (fun _ => 2) "today"
        [⟨none, some "hello"⟩] ∧
    (∀ j, j < 1 →
      ∃ pg y, PdfItem.text ("Iteration " ++ toString (1 + j)) pg y ∈
        (handleExportPDF 210 297 (fun _ => 2) "today"
          [⟨some ⟨100, 100, none⟩, some "hello"⟩]).2) ∧
    (∀ t, (some "hello" : Option String) = some t → isSentinel t = false →
      ∃ pg y, PdfItem.wrappedText t 2 pg y ∈
        (handleExportPDF 210 297 (fun _ => 2) "today"
          [⟨some ⟨100, 100, none⟩, some "hello"⟩]).2)) :=
  C8_export_isolated 210 297 (fun _ => 2) "today"
    [⟨some ⟨100, 100, none⟩, some "hello"⟩] 0 (by decide)
    ⟨100, 100, none⟩ rfl rfl

theorem textContent_cons_text (s : String) (pg : Nat) (y : ℚ)
    (l : List PdfItem) :
    textContent (.text s pg y :: l) = .text s pg y :: textContent l := by
  simp [textContent]

theorem textContent_append (l₁ l₂ : List PdfItem) :
    textContent (l₁ ++ l₂) = textContent l₁ ++ textContent l₂ := by
  simp [textContent]

/-- Two snapshots of the same record set, as two export invocations see
them: identical text and geometry, with only the re-encoded image bytes
allowed to differ (and encoding succeeding or failing the same way). -/
def cardMatch (c₁ c₂ : PdfCard) : Prop :=
  c₁.descText = c₂.descText ∧
  ((c₁.image = none ∧ c₂.image = none) ∨
    (∃ i₁ i₂, c₁.image = some i₁ ∧ c₂.image = some i₂ ∧
      i₁.naturalWidth = i₂.naturalWidth ∧
      i₁.naturalHeight = i₂.naturalHeight ∧
      i₁.encoded.isSome = i₂.encoded.isSome))

theorem imageStep_match (pageW pageH : ℚ) {c₁ c₂ : PdfCard}
    (himg : (c₁.image = none ∧ c₂.image = none) ∨
      (∃ i₁ i₂, c₁.image = some i₁ ∧ c₂.image = some i₂ ∧
        i₁.naturalWidth = i₂.naturalWidth ∧
        i₁.naturalHeight = i₂.naturalHeight ∧
        i₁.encoded.isSome = i₂.encoded.isSome)) (st : LayoutSt) :
    (imageStep pageW pageH c₁ st).1 = (imageStep pageW pageH c₂ st).1 ∧
    textContent (imageStep pageW pageH c₁ st).2 =
      textContent (imageStep pageW pageH c₂ st).2 := by
  rcases himg with ⟨h1, h2⟩ | ⟨i₁, i₂, h1, h2, hw, hh, he⟩
  · rw [imageStep_noImage pageW pageH c₁ h1,
      imageStep_noImage pageW pageH c₂ h2]
    exact ⟨rfl, rfl⟩
  · cases he1 : i₁.encoded with
    | none =>
        have he2 : i₂.encoded = none := by
          rw [he1] at he
          cases he2x : i₂.encoded
          · rfl
          · rw [he2x] at he; simp at he
        rw [imageStep_encNone pageW pageH c₁ i₁ h1 he1,
          imageStep_encNone pageW pageH c₂ i₂ h2 he2]
        exact ⟨rfl, rfl⟩
    | some d₁ =>
        obtain ⟨d₂, he2⟩ : ∃ d₂, i₂.encoded = some d₂ := by
          rw [he1] at he
          cases he2x : i₂.encoded
          · rw [he2x] at he; simp at he
          · exact ⟨_, rfl⟩
        have hHeq : imgScaledHeight pageW i₁ = imgScaledHeight pageW i₂ := by
          simp [imgScaledHeight, hw, hh]
        simp only [imageStep, h1, h2, he1, he2, hHeq]
        simp [textContent]

theorem exportCard_match (pageW pageH : ℚ) (split : String → Nat) (n : Nat)
    {c₁ c₂ : PdfCard} (h : cardMatch c₁ c₂) (st : LayoutSt) :
    (exportCard pageW pageH split n c₁ st).1 =
      (exportCard pageW pageH split n c₂ st).1 ∧
    textContent (exportCard pageW pageH split n c₁ st).2 =
      textContent (exportCard pageW pageH split n c₂ st).2 := by
  obtain ⟨hdesc, himg⟩ := h
  obtain ⟨hst, htext⟩ := imageStep_match pageW pageH himg
    ⟨(headingStep pageH st).page, (headingStep pageH st).y + 10⟩
  have hdescStep : ∀ s, descStep pageH split c₁ s =
      descStep pageH split c₂ s := by
    intro s
    unfold descStep
    rw [hdesc]
  simp only [exportCard]
  rw [hdescStep, hst]
  refine ⟨rfl, ?_⟩
  rw [textContent_cons_text, textContent_cons_text,
    textContent_append, textContent_append, htext]

theorem exportCardsFrom_match (pageW pageH : ℚ) (split : String → Nat)
    {cs₁ cs₂ : List PdfCard} (h : List.Forall₂ cardMatch cs₁ cs₂) :
    ∀ n st,
    (exportCardsFrom pageW pageH split cs₁ n st).1 =
      (exportCardsFrom pageW pageH split cs₂ n st).1 ∧
    textContent (exportCardsFrom pageW pageH split cs₁ n st).2 =
      textContent (exportCardsFrom pageW pageH split cs₂ n st).2 := by
  induction h with
  | nil => intro n st; exact ⟨rfl, rfl⟩
  | @cons a₁ a₂ l₁ l₂ hc hrest ih =>
      intro n st
      obtain ⟨hst1, htext1⟩ := exportCard_match pageW pageH split n hc st
      obtain ⟨hst2, htext2⟩ := ih (n + 1)
        (exportCard pageW pageH split n a₂ st).1
      simp only [exportCardsFrom]
      rw [hst1]
      refine ⟨hst2, ?_⟩
      rw [textContent_append, textContent_append, htext1, htext2]

/-- C9: two export invocations over the same record set — the images
re-encoded, so the bytes may differ and are only required to encode with the
same success pattern — produce documents with the same number of pages and
the same text content at the same positions. -/
theorem C9_export_deterministic (pageW pageH : ℚ) (split : String → Nat)
    (date : String) (cs₁ cs₂ : List PdfCard)
    (h : List.Forall₂ cardMatch cs₁ cs₂) :
    pageCount (handleExportPDF pageW pageH split date cs₁) =
      pageCount (handleExportPDF pageW pageH split date cs₂) ∧
    textContent (handleExportPDF pageW pageH split date cs₁).2 =
      textContent (handleExportPDF pageW pageH split date cs₂).2 := by
  obtain ⟨hst, htext⟩ := exportCardsFrom_match pageW pageH split h 1
    ⟨1, pdfMargin + 30⟩
  constructor
  · simp only [pageCount, handleExportPDF, hst]
  · simp only [handleExportPDF]
    rw [textContent_cons_text, textContent_cons_text, textContent_cons_text,
      textContent_cons_text, htext]

/-- Witness for C9: the same single record exported twice with different
re-encoded bytes ("AAA" then "BBB") gives the same page count and text. -/
theorem C9_witness :
    List.Forall₂ cardMatch
      [⟨some ⟨1024, 1024, some "AAA"⟩, some "hello"⟩]
      [⟨some ⟨1024, 1024, some "BBB"⟩, some "hello"⟩] ∧
    (pageCount (handleExportPDF 210 297 (fun _ => 2) "today"
        [⟨some ⟨1024, 1024, some "AAA"⟩, some "hello"⟩]) =
      pageCount (handleExportPDF 210 297 (fun _ => 2) "today"
        [⟨some ⟨1024, 1024, some "BBB"⟩, some "hello"⟩]) ∧
      textContent (handleExportPDF 210 297 (fun _ => 2) "today"
        [⟨some ⟨1024, 1024, some "AAA"⟩, some "hello"⟩]).2 =
      textContent (handleExportPDF 210 297 (fun _ => 2) "today"
        [⟨some ⟨1024, 1024, some "BBB"⟩, some "hello"⟩]).2) := by
  have hm : List.Forall₂ cardMatch
      [⟨some ⟨1024, 1024, some "AAA"⟩, some "hello"⟩]
      [⟨some ⟨1024, 1024, some "BBB"⟩, some "hello"⟩] :=
    List.Forall₂.cons ⟨rfl, Or.inr ⟨_, _, rfl, rfl, rfl, rfl, rfl⟩⟩
      List.Forall₂.nil
  exact ⟨hm, C9_export_deterministic 210 297 (fun _ => 2) "today" _ _ hm⟩

end VibeCoding
